import Mathlib

/-!
Shallow embedding of the SD_Sync repository (two Python command-line tools:
`firmware_downloader.py` and `sync_repos.py`) together with proofs about the
claims of its specification.

Python strings are modelled as `List Char`.  External effects (network
requests, the filesystem, the external `git` and `rsync` processes) are
modelled as explicit oracle parameters: each embedded function receives the
outcome of every external call it performs and we verify the pure
resolution, matching and aggregation logic that the source builds on top of
those calls.  Side effects on the filesystem are tracked as explicit action
lists where a claim is about them.

The regex class `\w` (Python `re`, used on firmware/device names) is
modelled as ASCII word characters (alphanumeric or underscore), and glob
matching (`fnmatch.fnmatch`) is modelled for patterns built from literal
characters, `?` and `*` (the form used by the configuration, e.g. `*.bin`).
-/

/-- Coerce a Lean string literal to the `List Char` model of Python strings. -/
def chars (s : String) : List Char := s.toList

/-- Python `str.lower()` restricted to ASCII (`'A'..'Z'` mapped down). -/
def pyLower (s : List Char) : List Char := s.map Char.toLower

/-- `needle` is a prefix of `hay` (Boolean). -/
def isPrefixB : List Char → List Char → Bool
  | [], _ => true
  | _ :: _, [] => false
  | a :: as, b :: bs => a == b && isPrefixB as bs

/-- Python substring containment `needle in hay` (Boolean). -/
def isInfixB (needle hay : List Char) : Bool :=
  match hay with
  | [] => isPrefixB needle []
  | _ :: t => isPrefixB needle hay || isInfixB needle t

/-- Python `'...'.split('/')`: split at every slash, keeping empty pieces. -/
def splitOnSlash : List Char → List (List Char)
  | [] => [[]]
  | c :: rest =>
    match splitOnSlash rest with
    | [] => [[]]
    | s :: ss => if c == '/' then [] :: s :: ss else (c :: s) :: ss

/-- Python `'...'.rstrip('/')`: drop all trailing slashes. -/
def rstripSlash (s : List Char) : List Char :=
  (s.reverse.dropWhile (fun c => c == '/')).reverse

/-- `fnmatch.fnmatch name pattern` for patterns made of literals, `?`, `*`
(no bracket classes; the repository's configured patterns are of the form
`*.bin`). -/
def fnmatchB (name pattern : List Char) : Bool :=
  match pattern with
  | [] => name.isEmpty
  | '*' :: ps => (List.tails name).any (fun t => fnmatchB t ps)
  | '?' :: ps =>
    match name with
    | [] => false
    | _ :: t => fnmatchB t ps
  | c :: ps =>
    match name with
    | [] => false
    | a :: t => a == c && fnmatchB t ps

/-! ## Firmware catalog data model (`firmware_downloader.py`) -/

/-- One `versions[]` record of the remote JSON catalog. -/
structure Version where
  version : List Char
  file : List Char
deriving DecidableEq, Inhabited

/-- One firmware object of the remote JSON catalog. -/
structure Firmware where
  category : List Char
  fname : List Char
  versions : List Version
deriving DecidableEq, Inhabited

/-- `get_firmware_for_device`: keep catalog entries whose category equals the
device, case-insensitively. -/
def get_firmware_for_device (catalog : List Firmware) (device : List Char) :
    List Firmware :=
  catalog.filter (fun fw => pyLower fw.category == pyLower device)

/-- `find_firmware_by_name`: first device entry whose name and the request
contain one another (case-insensitive, bidirectional substring). -/
def find_firmware_by_name (catalog : List Firmware) (device nm : List Char) :
    Option Firmware :=
  (get_firmware_for_device catalog device).find?
    (fun fw => isInfixB (pyLower nm) (pyLower fw.fname) ||
               isInfixB (pyLower fw.fname) (pyLower nm))

/-- The lowered label contains one of `beta`, `alpha`, `rc`, `dev`
(`any(x in version_str for x in [...])` over the lowered label). -/
def bannedAny (s : List Char) : Bool :=
  isInfixB (chars "beta") s || isInfixB (chars "alpha") s ||
  isInfixB (chars "rc") s || isInfixB (chars "dev") s

/-- The `stable` loop condition of `resolve_version`:
`'stable' in version_str or not any(...)` on the lowered label. -/
def stableCond (v : Version) : Bool :=
  isInfixB (chars "stable") (pyLower v.version) || !(bannedAny (pyLower v.version))

/-- `resolve_version`: `latest` / `stable` / `all` / specific-substring
selectors, exactly as the source scans the ordered version list. -/
def resolve_version (fw : Firmware) (requested : List Char) :
    Option (Version ⊕ List Version) :=
  if fw.versions.isEmpty then none
  else if requested = chars "latest" then some (Sum.inl (fw.versions.headD default))
  else if requested = chars "stable" then
    match fw.versions.find? stableCond with
    | some v => some (Sum.inl v)
    | none => some (Sum.inl (fw.versions.headD default))
  else if requested = chars "all" then some (Sum.inr fw.versions)
  else
    match fw.versions.find? (fun v => isInfixB requested v.version) with
    | some v => some (Sum.inl v)
    | none => none

/-- Python `s.replace(' ', '_')`. -/
def underscoreSpaces (s : List Char) : List Char :=
  s.map (fun c => if c == ' ' then '_' else c)

/-- Characters kept by `re.sub(r'[^\w\-_]', '', ·)` (ASCII model of `\w`). -/
def wordKeep (c : Char) : Bool := c.isAlphanum || c == '_' || c == '-'

/-- Characters kept by `re.sub(r'[^\w\-_\.]', '', ·)` (ASCII model of `\w`). -/
def verKeep (c : Char) : Bool := c.isAlphanum || c == '_' || c == '-' || c == '.'

/-- The name/device cleaning step of `clean_filename`. -/
def cleanNamePart (s : List Char) : List Char :=
  (underscoreSpaces s).filter wordKeep

/-- The version cleaning step of `clean_filename`:
`version.replace('v', '').replace('V', '')` followed by the character
filter.  Note that Python `replace` removes every occurrence. -/
def cleanVersionPart (s : List Char) : List Char :=
  ((s.filter (fun c => c != 'v')).filter (fun c => c != 'V')).filter verKeep

/-- `clean_filename(name, version, device)`. -/
def clean_filename (nm ver dev : List Char) : List Char :=
  cleanNamePart dev ++ chars "_" ++ cleanNamePart nm ++ chars "_" ++
    cleanVersionPart ver ++ chars ".bin"

/-- Characters the specification allows in constructed filenames
(word / hyphen / underscore / dot). -/
def okChar (c : Char) : Bool := c.isAlphanum || c == '_' || c == '-' || c == '.'

/-- `parts = releases_url.rstrip('/').split('/')` of the URL translation. -/
def urlParts (url : List Char) : List (List Char) :=
  splitOnSlash (rstripSlash url)

/-- `owner = parts[-3]` (third-from-last segment). -/
def urlOwner (url : List Char) : List Char :=
  (urlParts url).getD ((urlParts url).length - 3) []

/-- `repo = parts[-2]` (second-from-last segment). -/
def urlRepo (url : List Char) : List Char :=
  (urlParts url).getD ((urlParts url).length - 2) []

/-- `parse_github_releases_url`: translate a releases page URL to the
"latest release" API endpoint, or reject it. -/
def parse_github_releases_url (url : List Char) : Option (List Char) :=
  if isInfixB (chars "github.com") url = false then none
  else if (urlParts url).length < 5 then none
  else
    some (chars "https://api.github.com/repos/" ++ urlOwner url ++ chars "/" ++
          urlRepo url ++ chars "/releases/latest")

/-! ## Asset and firmware download logic (oracles for network/filesystem) -/

/-- One GitHub release asset, extended with the oracle outcomes of the
external calls made for it: whether the target file already exists and
whether the streaming download (request plus write) succeeds. -/
structure Asset where
  aname : List Char
  browser_download_url : List Char
  fileExists : Bool
  downloadOk : Bool
deriving DecidableEq, Inhabited

/-- GitHub "latest release" API response data. -/
structure Release where
  rname : List Char
  assets : List Asset
deriving DecidableEq, Inhabited

/-- One `github_releases` configuration entry. -/
structure GhConfig where
  gname : List Char
  releases_url : List Char
  file_pattern : List Char
deriving DecidableEq, Inhabited

/-- Per-asset outcome of the body of the asset loop in
`download_github_release_assets`: an asset with no download URL is skipped
without success; an existing target with overwrite disabled counts as
success; otherwise the download outcome decides. -/
def assetSuccess (overwrite : Bool) (a : Asset) : Bool :=
  if a.browser_download_url.isEmpty then false
  else if a.fileExists && !overwrite then true
  else a.downloadOk

/-- Assets of a release that match the configured glob pattern. -/
def matchingAssets (cfg : GhConfig) (rel : Release) : List Asset :=
  rel.assets.filter (fun a => fnmatchB a.aname cfg.file_pattern)

/-- Diagnostic printed when the latest release has no assets at all. -/
def noAssetsMsg (cfg : GhConfig) : List Char :=
  chars "No assets found in latest release of " ++ cfg.gname

/-- Diagnostic printed when no asset matches the glob pattern. -/
def noMatchMsg (cfg : GhConfig) : List Char :=
  chars "No assets matching pattern " ++ cfg.file_pattern ++
    chars " found in " ++ cfg.gname

/-- `download_github_release_assets`, returning the Python Boolean result
paired with the diagnostic line reported for the decisive branch.  The
network fetch of the API endpoint is an oracle (`fetch`). -/
def download_github_release_assets (cfg : GhConfig)
    (fetch : Except (List Char) Release) (overwrite : Bool) :
    Bool × List Char :=
  match parse_github_releases_url cfg.releases_url with
  | none => (false, chars "Invalid GitHub releases URL: " ++ cfg.releases_url)
  | some _ =>
    match fetch with
    | Except.error e => (false, chars "Failed to fetch GitHub release info: " ++ e)
    | Except.ok rel =>
      if rel.assets.isEmpty then (false, noAssetsMsg cfg)
      else
        let m := matchingAssets cfg rel
        if m.isEmpty then (false, noMatchMsg cfg)
        else
          let successCount := m.countP (assetSuccess overwrite)
          (successCount != 0,
           chars "Downloaded " ++ chars (Nat.repr successCount) ++ chars "/" ++
             chars (Nat.repr m.length) ++ chars " assets for " ++ cfg.gname)

/-- Oracle outcomes of the external calls of one `download_single_version`
invocation: whether the target file already exists, and whether the
download request and write succeed. -/
structure DlEnv where
  fileExists : Bool
  downloadOk : Bool
deriving DecidableEq, Inhabited

/-- `download_single_version`: fail when no download file is recorded; treat
an existing target with overwrite disabled as success; otherwise the
download outcome decides (a failed download is cleaned up and reported
false). -/
def download_single_version (vd : Version) (overwrite : Bool) (env : DlEnv) :
    Bool :=
  if vd.file.isEmpty then false
  else if env.fileExists && !overwrite then true
  else env.downloadOk

/-- The `"all"` loop of `download_firmware`: count the versions whose
`download_single_version` call succeeds, with an indexed oracle for the
per-version external outcomes. -/
def downloadAllCount : List Version → (Nat → DlEnv) → Bool → Nat
  | [], _, _ => 0
  | v :: rest, env, ow =>
    (if download_single_version v ow (env 0) then 1 else 0) +
      downloadAllCount rest (fun i => env (i + 1)) ow

/-- One firmware request assembled by `get_firmware_configs`. -/
structure FwConfig where
  device : List Char
  cname : List Char
  version : List Char
  device_key : List Char
deriving DecidableEq, Inhabited

/-- `download_firmware`: find the catalog entry, resolve the version
selector, then either fan out over all versions (success iff at least one
succeeds) or download the single resolved version.  `env` is the indexed
oracle for the external calls of the per-version downloads. -/
def download_firmware (catalog : List Firmware) (cfg : FwConfig)
    (env : Nat → DlEnv) (overwrite : Bool) : Bool :=
  match find_firmware_by_name catalog cfg.device cfg.cname with
  | none => false
  | some fw =>
    match resolve_version fw cfg.version with
    | none => false
    | some vd =>
      if cfg.version = chars "all" then
        match vd with
        | Sum.inr vs => downloadAllCount vs env overwrite != 0
        | Sum.inl v => download_single_version v overwrite (env 0)
      else
        match vd with
        | Sum.inl v => download_single_version v overwrite (env 0)
        | Sum.inr _ => false
          -- unreachable: `resolve_version` yields a list only for `"all"`

/-! ## Batch loops and final reports -/

/-- One batch entry of the firmware tool's `main`: its display name and the
outcome of processing it, where `Except.error` models an exception raised
while processing (the loop body has no try/except). -/
abbrev FwEntry := List Char × Except (List Char) Bool

/-- The firmware tool's batch loop (both the M5Stack and the GitHub loop of
`main` have this shape): successful and failed name lists are accumulated;
an exception raised by an entry propagates out of the loop. -/
def fwBatchLoop : List FwEntry → Except (List Char) (List (List Char) × List (List Char))
  | [] => Except.ok ([], [])
  | (n, r) :: rest =>
    match r with
    | Except.error e => Except.error e
    | Except.ok b =>
      match fwBatchLoop rest with
      | Except.error e => Except.error e
      | Except.ok (s, f) => Except.ok (if b then (n :: s, f) else (s, n :: f))

/-- The firmware tool's final report: totals over the two sub-batches and
the process exit code (`sys.exit(1)` iff any failure). -/
def fwMain (m5 gh : List FwEntry) : Except (List Char) (Nat × Nat × Nat) :=
  match fwBatchLoop m5 with
  | Except.error e => Except.error e
  | Except.ok (s1, f1) =>
    match fwBatchLoop gh with
    | Except.error e => Except.error e
    | Except.ok (s2, f2) =>
      let fc := f1.length + f2.length
      Except.ok (s1.length + s2.length, fc, if 0 < fc then 1 else 0)

/-- One batch entry of the repo tool's `main`: repository name and the
outcome of `process_repo`, where `Except.error` models a raised exception. -/
abbrev SyncEntry := List Char × Except (List Char) (Bool × List Char)

/-- Message recorded when an entry's processing raises. -/
def excMsg (n e : List Char) : List Char :=
  chars "Exception processing " ++ n ++ chars ": " ++ e

/-- The per-entry handler of the repo tool's batch loop: a normal result is
recorded as-is, an exception is converted to a failure outcome. -/
def syncHandle (n : List Char) (r : Except (List Char) (Bool × List Char)) :
    List Char × Bool × List Char :=
  match r with
  | Except.ok (s, m) => (n, s, m)
  | Except.error e => (n, false, excMsg n e)

/-- Boolean success of a repo entry's raw outcome (exception counts as
failure). -/
def entryOk (r : Except (List Char) (Bool × List Char)) : Bool :=
  match r with
  | Except.ok (s, _) => s
  | Except.error _ => false

/-- The repo tool's sequential batch loop (the parallel branch aggregates
futures identically): collected results plus the successful/failed
counters. -/
def syncBatchLoop : List SyncEntry → List (List Char × Bool × List Char) × Nat × Nat
  | [] => ([], 0, 0)
  | (n, r) :: rest =>
    let o := syncHandle n r
    let t := syncBatchLoop rest
    (o :: t.1, (if o.2.1 then t.2.1 + 1 else t.2.1),
     (if o.2.1 then t.2.2 else t.2.2 + 1))

/-- The repo tool's final report: counters from the batch loop, the extra
failure increment of the optional firmware-directory mirror step
(`fwStep = some b` when that step runs with external outcome `b`), and the
process exit code. -/
def syncMain (entries : List SyncEntry) (fwStep : Option Bool) : Nat × Nat × Nat :=
  let t := syncBatchLoop entries
  let f := if fwStep = some false then t.2.2 + 1 else t.2.2
  (t.2.1, f, if 0 < f then 1 else 0)

/-! ## Repository sync and file mirror (`sync_repos.py`) -/

/-- One `repositories[]` configuration entry. -/
structure RepoConfig where
  rpname : List Char
  url : List Char
  branch : List Char
  dest_dir : List Char
  enabled : Bool
  copy_files : List (List Char)
deriving DecidableEq, Inhabited

/-- Oracle outcomes of the external calls made by `rsync_files`: whether
`rsync` is installed, which paths exist on disk, and whether the single
`rsync` invocation exits cleanly (with its stderr text otherwise). -/
structure MirrorEnv where
  rsyncAvailable : Bool
  pathExists : List Char → Bool
  callClean : Bool
  errText : List Char

/-- Filesystem-changing steps a repo entry's processing can perform; a claim
about leaving a directory untouched is stated as the action list recorded. -/
inductive FsAction
  | mkdirParents (p : List Char)
  | gitClone (url branch dest : List Char)
  | gitSync (dest branch : List Char)
  | mkdirDest (p : List Char)
  | runMirror (dest : List Char)
deriving DecidableEq

/-- The source list `rsync_files` iterates: the configured `copy_files`, or
`["./"]` when none are configured (copy everything). -/
def mirrorFiles (cfg : RepoConfig) : List (List Char) :=
  if cfg.copy_files.isEmpty then [chars "./"] else cfg.copy_files

/-- Configured sources that exist under the repository root. -/
def mirrorValid (cfg : RepoConfig) (env : MirrorEnv) : List (List Char) :=
  (mirrorFiles cfg).filter (fun f => env.pathExists (cfg.dest_dir ++ chars "/" ++ f))

/-- Configured sources that are missing under the repository root. -/
def mirrorMissing (cfg : RepoConfig) (env : MirrorEnv) : List (List Char) :=
  (mirrorFiles cfg).filter (fun f => !(env.pathExists (cfg.dest_dir ++ chars "/" ++ f)))

/-- The success message of `rsync_files` (count of copied items, plus the
missing-items note when some sources were absent). -/
def mirrorOkMsg (cfg : RepoConfig) (env : MirrorEnv) : List Char :=
  chars "Successfully copied " ++ chars (Nat.repr (mirrorValid cfg env).length) ++
    chars " items" ++
    (if (mirrorMissing cfg env).isEmpty then []
     else chars " (" ++ chars (Nat.repr (mirrorMissing cfg env).length) ++
          chars " items were missing)")

/-- `rsync_files`: result `(success, message)` paired with the filesystem
actions performed.  Mirrors the source exactly: no base directory is a
no-op success; an unavailable `rsync` or an empty valid-source list is
fatal before the call; after a clean external call the returned success
flag is `not bool(missing_sources)`. -/
def rsync_files (cfg : RepoConfig) (copyBaseDir : Option (List Char))
    (env : MirrorEnv) : (Bool × List Char) × List FsAction :=
  match copyBaseDir with
  | none => ((true, chars "No files to copy"), [])
  | some base =>
    if !env.rsyncAvailable then
      ((false, chars "rsync is not available on this system"), [])
    else
      let destPath := base ++ chars "/" ++ cfg.rpname
      if (mirrorValid cfg env).isEmpty then
        ((false, chars "No valid source paths found"), [])
      else if env.callClean then
        (((mirrorMissing cfg env).isEmpty, mirrorOkMsg cfg env),
         [FsAction.mkdirDest destPath, FsAction.runMirror destPath])
      else
        ((false, chars "rsync failed: " ++ env.errText),
         [FsAction.mkdirDest destPath, FsAction.runMirror destPath])

/-- The `--operation` mode of the repo tool. -/
inductive Operation
  | syncOp
  | copyOp
  | bothOp
deriving DecidableEq, Inhabited

/-- Whether the git phase runs (`operation in ['sync', 'both']`). -/
def opDoesGit : Operation → Bool
  | Operation.syncOp => true
  | Operation.bothOp => true
  | Operation.copyOp => false

/-- Whether the copy phase runs (`operation in ['copy', 'both']`). -/
def opDoesCopy : Operation → Bool
  | Operation.copyOp => true
  | Operation.bothOp => true
  | Operation.syncOp => false

/-- Oracle outcomes of the external calls of one `process_repo` invocation:
the two filesystem probes and the results of the delegated `git`
operations, plus the mirror-call oracles. -/
structure SyncEnv where
  destExists : Bool
  isGitRepo : Bool
  cloneResult : Bool × List Char
  syncResult : Bool × List Char
  mirror : MirrorEnv

/-- The terminal message for a destination that exists but is not a git
repository. -/
def notGitMsg (cfg : RepoConfig) : List Char :=
  chars "Directory " ++ cfg.dest_dir ++ chars " exists but is not a git repository"

/-- `process_repo`: the per-entry state machine of the repo tool, returning
`(success, message)` and the filesystem actions performed.  Early returns
of the source become `Except.error` of the git phase. -/
def process_repo (cfg : RepoConfig) (copyBaseDir : Option (List Char))
    (op : Operation) (env : SyncEnv) : (Bool × List Char) × List FsAction :=
  if cfg.enabled = false then
    ((true, chars "Skipped " ++ cfg.rpname ++ chars " (disabled)"), [])
  else
    let gitPart :
        Except ((Bool × List Char) × List FsAction) (List Char × List FsAction) :=
      if opDoesGit op then
        if env.destExists then
          if env.isGitRepo then
            let acts := [FsAction.gitSync cfg.dest_dir cfg.branch]
            if env.syncResult.1 then Except.ok (env.syncResult.2, acts)
            else Except.error ((false, env.syncResult.2), acts)
          else
            Except.error ((false, notGitMsg cfg), [])
        else
          let acts := [FsAction.mkdirParents cfg.dest_dir,
                       FsAction.gitClone cfg.url cfg.branch cfg.dest_dir]
          if env.cloneResult.1 then Except.ok (env.cloneResult.2, acts)
          else Except.error ((false, env.cloneResult.2), acts)
      else Except.ok ([], [])
    match gitPart with
    | Except.error out => out
    | Except.ok (gitMsg, gitActs) =>
      if opDoesCopy op then
        if op = Operation.copyOp ∧ env.destExists = false then
          ((false, chars "Repository directory " ++ cfg.dest_dir ++
              chars " does not exist (cannot copy without sync first)"), gitActs)
        else
          let rr := rsync_files cfg copyBaseDir env.mirror
          let acts := gitActs ++ rr.2
          if rr.1.1 then
            match op with
            | Operation.copyOp => ((true, rr.1.2), acts)
            | _ =>
              ((true, if rr.1.2 = chars "No files to copy" then gitMsg
                      else gitMsg ++ chars "; " ++ rr.1.2), acts)
          else
            match op with
            | Operation.copyOp => ((false, rr.1.2), acts)
            | _ => ((false, gitMsg ++ chars "; " ++ rr.1.2), acts)
      else
        ((true, gitMsg), gitActs)

/-! ## Helper lemmas -/

theorem underscoreSpaces_id {l : List Char} (h : ∀ a ∈ l, (a == ' ') = false) :
    underscoreSpaces l = l := by
  induction l with
  | nil => rfl
  | cons a t ih =>
    have ha : (a == ' ') = false := h a (by simp)
    have ht : underscoreSpaces t = t := ih (fun x hx => h x (by simp [hx]))
    show (if a == ' ' then '_' else a) :: underscoreSpaces t = a :: t
    rw [ha, ht]
    rfl

theorem wordKeep_not_space {c : Char} (h : wordKeep c = true) : (c == ' ') = false := by
  cases hc : c == ' '
  · rfl
  · have hceq : c = ' ' := by simpa using hc
    subst hceq
    exact absurd h (by decide)

theorem cleanNamePart_keep {s : List Char} {c : Char} (h : c ∈ cleanNamePart s) :
    wordKeep c = true :=
  List.of_mem_filter h

theorem cleanNamePart_idem (s : List Char) :
    cleanNamePart (cleanNamePart s) = cleanNamePart s := by
  show (underscoreSpaces (cleanNamePart s)).filter wordKeep = cleanNamePart s
  rw [underscoreSpaces_id (fun a ha => wordKeep_not_space (cleanNamePart_keep ha))]
  exact List.filter_eq_self.mpr (fun a ha => cleanNamePart_keep ha)

theorem cleanVersionPart_spec {s : List Char} {c : Char} (h : c ∈ cleanVersionPart s) :
    (c != 'v') = true ∧ (c != 'V') = true ∧ verKeep c = true := by
  have h3 : c ∈ ((s.filter (fun x => x != 'v')).filter (fun x => x != 'V')).filter verKeep := h
  have h2 := List.mem_of_mem_filter h3
  have h1 := List.mem_of_mem_filter h2
  have g1 := List.of_mem_filter h1
  have g2 := List.of_mem_filter h2
  have g3 := List.of_mem_filter h3
  exact ⟨g1, g2, g3⟩

theorem cleanVersionPart_idem (s : List Char) :
    cleanVersionPart (cleanVersionPart s) = cleanVersionPart s := by
  show (((cleanVersionPart s).filter (fun x => x != 'v')).filter
          (fun x => x != 'V')).filter verKeep = cleanVersionPart s
  rw [List.filter_eq_self.mpr (fun a ha => (cleanVersionPart_spec ha).1),
      List.filter_eq_self.mpr (fun a ha => (cleanVersionPart_spec ha).2.1),
      List.filter_eq_self.mpr (fun a ha => (cleanVersionPart_spec ha).2.2)]

theorem wordKeep_ok {c : Char} (h : wordKeep c = true) : okChar c = true := by
  simp only [wordKeep, Bool.or_eq_true] at h
  simp only [okChar, Bool.or_eq_true]
  tauto

/-! ## Claims about filename construction -/

/-- C6: the claim says filename construction strips only a *leading* `v`/`V`
from the version label.  The code (`version.replace('v', '').replace('V', '')`)
removes every occurrence, contradicting its own comment ("remove 'v' prefix
if present"): on the label `1.0-dev`, which has no leading `v`, the `v` of
`dev` is removed and the produced filename is `m5_fw_1.0-de.bin` instead of
the claimed `m5_fw_1.0-dev.bin`. -/
theorem clean_filename_strips_every_v :
    clean_filename (chars "fw") (chars "1.0-dev") (chars "m5") =
      chars "m5_fw_1.0-de.bin" := by decide

/-- C7: filename construction is idempotent — each component cleaner is a
fixed point on its own output, re-cleaning the cleaned components yields the
same filename — and every character of the output is a word character,
hyphen, underscore or dot. -/
theorem clean_filename_idem_charset (nm ver dev : List Char) :
    cleanNamePart (cleanNamePart nm) = cleanNamePart nm ∧
    cleanVersionPart (cleanVersionPart ver) = cleanVersionPart ver ∧
    cleanNamePart (cleanNamePart dev) = cleanNamePart dev ∧
    clean_filename (cleanNamePart nm) (cleanVersionPart ver) (cleanNamePart dev) =
      clean_filename nm ver dev ∧
    (clean_filename nm ver dev).all okChar = true := by
  refine ⟨cleanNamePart_idem nm, cleanVersionPart_idem ver, cleanNamePart_idem dev, ?_, ?_⟩
  · unfold clean_filename
    rw [cleanNamePart_idem, cleanNamePart_idem, cleanVersionPart_idem]
  · have hname : ∀ s : List Char, (cleanNamePart s).all okChar = true := fun s =>
      List.all_eq_true.mpr (fun c hc => wordKeep_ok (List.of_mem_filter hc))
    have hver : ∀ s : List Char, (cleanVersionPart s).all okChar = true := fun s =>
      List.all_eq_true.mpr (fun c hc => (cleanVersionPart_spec hc).2.2)
    simp [clean_filename, List.all_append, hname, hver]
    decide

/-! ## Claims about version resolution -/

/-- C4 counterexample: the claim says `resolveVersion(entry, "stable")`
returns a version free of {beta, alpha, rc, dev} whenever one exists.  On a
catalog whose first label is `v1-Stable-Beta` and whose second is `v2`, the
code returns the first version — its lowered label contains `stable`, so the
loop accepts it — even though it contains `beta` and the banned-word-free
`v2` exists. -/
theorem resolve_stable_claim_cex :
    resolve_version
        ⟨chars "demo", chars "demo",
         [⟨chars "v1-Stable-Beta", chars "f1"⟩, ⟨chars "v2", chars "f2"⟩]⟩
        (chars "stable") =
      some (Sum.inl ⟨chars "v1-Stable-Beta", chars "f1"⟩) ∧
    bannedAny (pyLower (chars "v1-Stable-Beta")) = true ∧
    bannedAny (pyLower (chars "v2")) = false := by decide

/-- C4 amended: for a non-empty version list, `resolveVersion(entry,
"stable")` returns the first version whose lowered label contains `stable`
or contains none of {beta, alpha, rc, dev}; when no version qualifies it
falls back to the first version of the list. -/
theorem resolve_stable_amended (fw : Firmware) (h : fw.versions ≠ []) :
    ((∃ u ∈ fw.versions, stableCond u = true) →
      ∃ v, fw.versions.find? stableCond = some v ∧ v ∈ fw.versions ∧
        stableCond v = true ∧
        resolve_version fw (chars "stable") = some (Sum.inl v)) ∧
    ((∀ u ∈ fw.versions, stableCond u = false) →
      resolve_version fw (chars "stable") =
        some (Sum.inl (fw.versions.headD default))) := by
  have hne : ¬(fw.versions.isEmpty = true) := by simp [List.isEmpty_iff, h]
  constructor
  · rintro ⟨u, hu, hcond⟩
    have hsome : (fw.versions.find? stableCond).isSome :=
      List.find?_isSome.mpr ⟨u, hu, hcond⟩
    obtain ⟨v, hv⟩ := Option.isSome_iff_exists.mp hsome
    refine ⟨v, hv, List.mem_of_find?_eq_some hv, List.find?_some hv, ?_⟩
    unfold resolve_version
    rw [if_neg hne, if_neg (by decide), if_pos rfl, hv]
  · intro hall
    have hnone : fw.versions.find? stableCond = none :=
      List.find?_eq_none.mpr (fun x hx => by simp [hall x hx])
    unfold resolve_version
    rw [if_neg hne, if_neg (by decide), if_pos rfl, hnone]

/-- C4 witness: on a catalog whose only label is `v1-beta` no version
qualifies, and `stable` resolution falls back to the first version. -/
theorem resolve_stable_amended_witness :
    resolve_version ⟨chars "d", chars "d", [⟨chars "v1-beta", chars "f"⟩]⟩
        (chars "stable") =
      some (Sum.inl (([⟨chars "v1-beta", chars "f"⟩] : List Version).headD default)) :=
  (resolve_stable_amended ⟨chars "d", chars "d", [⟨chars "v1-beta", chars "f"⟩]⟩
    (by decide)).2 (by decide)

/-! ## Claims about the GitHub URL translation -/

/-- C5: the releases URL `https://github.com/owner/repo/releases` maps to
the latest-release API endpoint; a URL whose stripped split has fewer than
5 segments, or without the `github.com` marker, yields no endpoint; every
accepted URL produces the endpoint built from its third-from-last and
second-from-last segments; and a rejected URL makes the release download
fail immediately, independently of any network outcome. -/
theorem github_url_translation :
    parse_github_releases_url (chars "https://github.com/owner/repo/releases") =
      some (chars "https://api.github.com/repos/owner/repo/releases/latest") ∧
    (∀ url : List Char, (urlParts url).length < 5 →
      parse_github_releases_url url = none) ∧
    (∀ url : List Char, isInfixB (chars "github.com") url = false →
      parse_github_releases_url url = none) ∧
    (∀ url r : List Char, parse_github_releases_url url = some r →
      isInfixB (chars "github.com") url = true ∧
      5 ≤ (urlParts url).length ∧
      r = chars "https://api.github.com/repos/" ++ urlOwner url ++ chars "/" ++
          urlRepo url ++ chars "/releases/latest") ∧
    (∀ (cfg : GhConfig) (fetch : Except (List Char) Release) (ow : Bool),
      parse_github_releases_url cfg.releases_url = none →
      download_github_release_assets cfg fetch ow =
        (false, chars "Invalid GitHub releases URL: " ++ cfg.releases_url)) := by
  refine ⟨by decide, ?_, ?_, ?_, ?_⟩
  · intro url h
    unfold parse_github_releases_url
    by_cases h1 : isInfixB (chars "github.com") url = false
    · rw [if_pos h1]
    · rw [if_neg h1, if_pos h]
  · intro url h
    unfold parse_github_releases_url
    rw [if_pos h]
  · intro url r h
    unfold parse_github_releases_url at h
    by_cases h1 : isInfixB (chars "github.com") url = false
    · rw [if_pos h1] at h
      exact absurd h (by simp)
    · rw [if_neg h1] at h
      by_cases h2 : (urlParts url).length < 5
      · rw [if_pos h2] at h
        exact absurd h (by simp)
      · rw [if_neg h2] at h
        refine ⟨by simpa using h1, by omega, ?_⟩
        exact (Option.some.injEq .. ▸ h).symm
  · intro cfg fetch ow h
    unfold download_github_release_assets
    rw [h]

/-- C5 witness: a URL with only three segments yields no endpoint, a URL
without the marker yields no endpoint, and a configuration with a rejected
URL fails the release download with the invalid-URL diagnostic. -/
theorem github_url_translation_witness :
    parse_github_releases_url (chars "https://github.com") = none ∧
    parse_github_releases_url (chars "http://example.com/a/b/c/d/e") = none ∧
    download_github_release_assets ⟨chars "n", chars "bad", chars "*.bin"⟩
        (Except.ok ⟨chars "r", []⟩) false =
      (false, chars "Invalid GitHub releases URL: " ++ chars "bad") :=
  ⟨github_url_translation.2.1 (chars "https://github.com") (by decide),
   github_url_translation.2.2.1 (chars "http://example.com/a/b/c/d/e") (by decide),
   github_url_translation.2.2.2.2 ⟨chars "n", chars "bad", chars "*.bin"⟩
     (Except.ok ⟨chars "r", []⟩) false (by decide)⟩

/-! ## Claims about the file mirror -/

/-- C2 counterexample: with two configured sources of which exactly one
exists and an external copy call that exits cleanly, `rsync_files` reports
failure — the returned success flag is `not bool(missing_sources)` — even
though a valid source remained, refuting the claim that missing sources are
not themselves fatal. -/
theorem rsync_missing_sources_cex :
    (rsync_files ⟨chars "r", chars "u", chars "b", chars "repo", true,
         [chars "a", chars "b"]⟩
       (some (chars "out"))
       ⟨true, fun p => p == chars "repo/a", true, []⟩).1.1 = false ∧
    mirrorValid ⟨chars "r", chars "u", chars "b", chars "repo", true,
         [chars "a", chars "b"]⟩
       ⟨true, fun p => p == chars "repo/a", true, []⟩ = [chars "a"] ∧
    MirrorEnv.callClean ⟨true, fun p => p == chars "repo/a", true, []⟩ = true := by
  refine ⟨by decide, by decide, rfl⟩

/-- C2 amended: with `rsync` available and a destination configured, the
mirror operation reports success iff the external call exits cleanly, at
least one valid source path exists, **and** no configured source path is
missing; a missing source makes the whole operation report failure even
when the external call exits cleanly. -/
theorem rsync_missing_sources_fatal (cfg : RepoConfig) (base : List Char)
    (env : MirrorEnv) (ha : env.rsyncAvailable = true) :
    (rsync_files cfg (some base) env).1.1 = true ↔
      env.callClean = true ∧ mirrorValid cfg env ≠ [] ∧
        mirrorMissing cfg env = [] := by
  unfold rsync_files
  rw [ha]
  by_cases hv : (mirrorValid cfg env).isEmpty
  · have hv' : mirrorValid cfg env = [] := List.isEmpty_iff.mp hv
    simp [hv, hv']
  · have hv' : mirrorValid cfg env ≠ [] := by simpa [List.isEmpty_iff] using hv
    by_cases hc : env.callClean
    · simp [hv, hv', hc, List.isEmpty_iff]
    · simp [hv, hv', hc]

/-- C2 witness: one configured source that exists, clean external call —
the mirror reports success. -/
theorem rsync_missing_sources_fatal_witness :
    (rsync_files ⟨chars "r", chars "u", chars "b", chars "repo", true, [chars "a"]⟩
       (some (chars "out"))
       ⟨true, fun p => p == chars "repo/a", true, []⟩).1.1 = true :=
  (rsync_missing_sources_fatal
      ⟨chars "r", chars "u", chars "b", chars "repo", true, [chars "a"]⟩
      (chars "out") ⟨true, fun p => p == chars "repo/a", true, []⟩ rfl).mpr
    ⟨rfl, by decide, by decide⟩

/-! ## Claims about repository sync -/

/-- C8: an enabled repository entry whose destination exists but is not a
valid git repository is a terminal failure for the git-performing
operations, and the entry's processing performs no filesystem action at
all — the existing directory is never overwritten. -/
theorem not_git_repo_terminal (cfg : RepoConfig) (base : Option (List Char))
    (op : Operation) (env : SyncEnv) (he : cfg.enabled = true)
    (hop : op = Operation.syncOp ∨ op = Operation.bothOp)
    (hd : env.destExists = true) (hg : env.isGitRepo = false) :
    process_repo cfg base op env = ((false, notGitMsg cfg), []) := by
  rcases hop with h | h <;> subst h <;>
    simp [process_repo, he, hd, hg, opDoesGit]

/-- C8 witness: a concrete enabled entry with an existing non-git
destination fails with the terminal message and an empty action list. -/
theorem not_git_repo_terminal_witness :
    process_repo ⟨chars "r", chars "u", chars "b", chars "repo", true, []⟩ none
        Operation.syncOp
        ⟨true, false, (true, chars "c"), (true, chars "s"),
         ⟨true, fun _ => true, true, []⟩⟩ =
      ((false, notGitMsg ⟨chars "r", chars "u", chars "b", chars "repo", true, []⟩),
       []) :=
  not_git_repo_terminal ⟨chars "r", chars "u", chars "b", chars "repo", true, []⟩
    none Operation.syncOp
    ⟨true, false, (true, chars "c"), (true, chars "s"), ⟨true, fun _ => true, true, []⟩⟩
    rfl (Or.inl rfl) rfl rfl

/-! ## Claims about GitHub release asset downloads -/

/-- C9: for a release entry whose URL parses and whose API fetch succeeds,
the overall call reports success iff at least one asset matching the glob
pattern is downloaded or skipped successfully; a release with no assets at
all and a release whose assets all fail the pattern are both reported
failures, with distinct diagnostics. -/
theorem github_release_success (cfg : GhConfig) (rel : Release) (ow : Bool)
    (u : List Char) (hp : parse_github_releases_url cfg.releases_url = some u) :
    ((download_github_release_assets cfg (Except.ok rel) ow).1 = true ↔
      ∃ a ∈ matchingAssets cfg rel, assetSuccess ow a = true) ∧
    (rel.assets = [] →
      download_github_release_assets cfg (Except.ok rel) ow =
        (false, noAssetsMsg cfg)) ∧
    (rel.assets ≠ [] → matchingAssets cfg rel = [] →
      download_github_release_assets cfg (Except.ok rel) ow =
        (false, noMatchMsg cfg)) ∧
    noAssetsMsg cfg ≠ noMatchMsg cfg := by
  refine ⟨?_, ?_, ?_, ?_⟩
  · by_cases hA : rel.assets.isEmpty
    · have hA' : rel.assets = [] := List.isEmpty_iff.mp hA
      simp [download_github_release_assets, hp, hA, matchingAssets, hA']
    · by_cases hM : (matchingAssets cfg rel).isEmpty
      · have hM' : matchingAssets cfg rel = [] := List.isEmpty_iff.mp hM
        simp [download_github_release_assets, hp, hA, hM, hM']
      · simp [download_github_release_assets, hp, hA, hM, bne_iff_ne,
              ← Nat.pos_iff_ne_zero, List.countP_pos_iff]
  · intro h
    simp [download_github_release_assets, hp, h]
  · intro hne hM
    simp [download_github_release_assets, hp, hM, List.isEmpty_iff, hne]
  · intro h
    have h10 := congrArg (fun l => l[10]?) h
    simp only [noAssetsMsg, noMatchMsg] at h10
    have e1 : (chars "No assets matching pattern ").length = 27 := rfl
    have h2 : 10 < (chars "No assets matching pattern " ++ cfg.file_pattern).length := by
      rw [List.length_append, e1]; omega
    have h3 : 10 < ((chars "No assets matching pattern " ++ cfg.file_pattern) ++
        chars " found in ").length := by
      rw [List.length_append]; omega
    rw [List.getElem?_append_left (by decide), List.getElem?_append_left h3,
        List.getElem?_append_left h2, List.getElem?_append_left (by decide)] at h10
    exact absurd h10 (by decide)

/-- C9 witness: one matching asset whose download succeeds makes the call
report success. -/
theorem github_release_success_witness :
    (download_github_release_assets
        ⟨chars "n", chars "https://github.com/o/r/releases", chars "*.bin"⟩
        (Except.ok ⟨chars "v1", [⟨chars "a.bin", chars "u", false, true⟩]⟩)
        false).1 = true :=
  ((github_release_success
      ⟨chars "n", chars "https://github.com/o/r/releases", chars "*.bin"⟩
      ⟨chars "v1", [⟨chars "a.bin", chars "u", false, true⟩]⟩ false
      (chars "https://api.github.com/repos/o/r/releases/latest")
      (by decide)).1).mpr
    ⟨⟨chars "a.bin", chars "u", false, true⟩, by decide, by decide⟩

/-! ## Claims about the "all" version fan-out -/

theorem downloadAllCount_pos (vs : List Version) (env : Nat → DlEnv) (ow : Bool) :
    downloadAllCount vs env ow ≠ 0 ↔
      ∃ i, i < vs.length ∧
        download_single_version (vs.getD i default) ow (env i) = true := by
  induction vs generalizing env with
  | nil => simp [downloadAllCount]
  | cons v rest ih =>
    by_cases hv : download_single_version v ow (env 0) = true
    · constructor
      · intro _
        exact ⟨0, by simp, by simpa using hv⟩
      · intro _
        simp [downloadAllCount, hv]
    · have hv' : download_single_version v ow (env 0) = false := by
        simpa using hv
      constructor
      · intro h
        obtain ⟨i, hi, hs⟩ := (ih (fun i => env (i + 1))).mp
          (by simpa [downloadAllCount, hv'] using h)
        exact ⟨i + 1, by simp only [List.length_cons]; omega, by simpa using hs⟩
      · rintro ⟨i, hi, hs⟩
        cases i with
        | zero => simp only [List.getD_cons_zero] at hs; exact absurd hs hv
        | succ j =>
          have hrest := (ih (fun i => env (i + 1))).mpr
            ⟨j, by simpa using hi, by simpa using hs⟩
          simp [downloadAllCount, hv']
          omega

/-- C10: for a firmware entry whose selector is `all` over a found catalog
entry with a non-empty version list, `download_firmware` records success
iff at least one of the per-version downloads (or skips) succeeds; when
all of them fail, the entry is recorded as failed. -/
theorem download_all_versions_success (catalog : List Firmware) (cfg : FwConfig)
    (env : Nat → DlEnv) (ow : Bool) (fw : Firmware)
    (hall : cfg.version = chars "all")
    (hfind : find_firmware_by_name catalog cfg.device cfg.cname = some fw)
    (hne : fw.versions ≠ []) :
    download_firmware catalog cfg env ow = true ↔
      ∃ i, i < fw.versions.length ∧
        download_single_version (fw.versions.getD i default) ow (env i) = true := by
  have hres : resolve_version fw (chars "all") = some (Sum.inr fw.versions) := by
    unfold resolve_version
    rw [if_neg (by simp [List.isEmpty_iff, hne]), if_neg (by decide),
        if_neg (by decide), if_pos rfl]
  simp [download_firmware, hfind, hres, hall, bne_iff_ne, downloadAllCount_pos]

/-- C10 witness: with two catalog versions of which only the second
download succeeds, the entry is recorded as successful. -/
theorem download_all_versions_success_witness :
    download_firmware
        [⟨chars "m5", chars "fwx",
          [⟨chars "v1", chars "f1"⟩, ⟨chars "v2", chars "f2"⟩]⟩]
        ⟨chars "m5", chars "fwx", chars "all", chars "key"⟩
        (fun i => if i = 1 then ⟨false, true⟩ else ⟨false, false⟩) false = true :=
  (download_all_versions_success
      [⟨chars "m5", chars "fwx",
        [⟨chars "v1", chars "f1"⟩, ⟨chars "v2", chars "f2"⟩]⟩]
      ⟨chars "m5", chars "fwx", chars "all", chars "key"⟩
      (fun i => if i = 1 then ⟨false, true⟩ else ⟨false, false⟩) false
      ⟨chars "m5", chars "fwx", [⟨chars "v1", chars "f1"⟩, ⟨chars "v2", chars "f2"⟩]⟩
      rfl (by decide) (by decide)).mpr
    ⟨1, by decide, by decide⟩

/-! ## Claims about batch aggregation -/

/-- C3 counterexample: the firmware tool's batch loop has no per-entry
try/except — an exception raised while processing the first entry
propagates out of the loop and the remaining entries (here one that would
have succeeded) are never processed or recorded. -/
theorem fw_batch_propagates_cex :
    fwBatchLoop [(chars "a", Except.error (chars "boom")),
                 (chars "b", Except.ok true)] =
      Except.error (chars "boom") := rfl

/-- C3 amended: in the repo-sync tool's batch loop every entry yields
exactly one recorded outcome, an exception raised by an entry is converted
into a failure outcome for that entry alone, and no exception aborts the
remaining entries (the result list always covers the whole batch). -/
theorem sync_batch_isolates_exceptions (entries : List SyncEntry) :
    (syncBatchLoop entries).1 = entries.map (fun p => syncHandle p.1 p.2) ∧
    (syncBatchLoop entries).1.length = entries.length := by
  have hmap : ∀ es : List SyncEntry,
      (syncBatchLoop es).1 = es.map (fun p => syncHandle p.1 p.2) := by
    intro es
    induction es with
    | nil => rfl
    | cons e rest ih =>
      cases e with
      | mk n r => simp [syncBatchLoop, ih]
  exact ⟨hmap entries, by rw [hmap entries, List.length_map]⟩

theorem syncHandle_ok (n : List Char) (r : Except (List Char) (Bool × List Char)) :
    (syncHandle n r).2.1 = entryOk r := by
  cases r with
  | ok p => cases p; rfl
  | error e => rfl

theorem syncBatchLoop_counts (entries : List SyncEntry) :
    (syncBatchLoop entries).2.1 = entries.countP (fun p => entryOk p.2) ∧
    (syncBatchLoop entries).2.2 = entries.countP (fun p => !(entryOk p.2)) := by
  induction entries with
  | nil => simp [syncBatchLoop]
  | cons e rest ih =>
    cases e with
    | mk n r =>
      simp only [syncBatchLoop, syncHandle_ok, List.countP_cons]
      cases hb : entryOk r <;> simp [hb, ih.1, ih.2]

theorem countP_not_add {α : Type} (p : α → Bool) (l : List α) :
    l.countP p + l.countP (fun a => !p a) = l.length := by
  induction l with
  | nil => rfl
  | cons a t ih =>
    simp only [List.countP_cons, List.length_cons]
    cases h : p a <;> simp [h] <;> omega

/-- Boolean: the firmware entry's processing returned normally. -/
def fwEntryRan (r : Except (List Char) Bool) : Bool :=
  match r with
  | Except.ok _ => true
  | Except.error _ => false

/-- Boolean: the firmware entry's processing returned `True`. -/
def fwEntryPass (r : Except (List Char) Bool) : Bool :=
  match r with
  | Except.ok b => b
  | Except.error _ => false

/-- Boolean: the firmware entry is recorded as failed (returned `False`);
an exception never reaches the recording step at all. -/
def fwEntryFail (r : Except (List Char) Bool) : Bool :=
  match r with
  | Except.ok b => !b
  | Except.error _ => true

theorem fwBatchLoop_ok (entries : List FwEntry)
    (h : ∀ p ∈ entries, fwEntryRan p.2 = true) :
    ∃ s f, fwBatchLoop entries = Except.ok (s, f) ∧
      s.length = entries.countP (fun p => fwEntryPass p.2) ∧
      f.length = entries.countP (fun p => fwEntryFail p.2) := by
  induction entries with
  | nil => exact ⟨[], [], rfl, by simp, by simp⟩
  | cons e rest ih =>
    cases e with
    | mk n r =>
      obtain ⟨s, f, hbl, hs, hf⟩ := ih (fun p hp => h p (by simp [hp]))
      cases r with
      | error e =>
        exact absurd (h (n, Except.error e) (by simp)) (by simp [fwEntryRan])
      | ok b =>
        cases b
        · exact ⟨s, n :: f, by simp [fwBatchLoop, hbl],
            by simp [hs, List.countP_cons, fwEntryPass],
            by simp [hf, List.countP_cons, fwEntryFail]⟩
        · exact ⟨n :: s, f, by simp [fwBatchLoop, hbl],
            by simp [hs, List.countP_cons, fwEntryPass],
            by simp [hf, List.countP_cons, fwEntryFail]⟩

theorem fwPass_not_fail (p : FwEntry) (h : fwEntryRan p.2 = true) :
    fwEntryPass p.2 = !(fwEntryFail p.2) := by
  obtain ⟨n, r⟩ := p
  cases r with
  | ok b => cases b <;> rfl
  | error e => exact absurd h (by simp [fwEntryRan])

/-- C1 counterexample: in the repo tool, a failing firmware-directory
mirror step adds a failure that is not one of the configured entries — a
batch of one entry with zero entry failures reports `failed = 1` and exits
with code 1, where the claim predicts `failed = 0` and exit code 0. -/
theorem batch_report_cex :
    syncMain [(chars "a", Except.ok (true, chars "m"))] (some false) =
      (1, 1, 1) := rfl

/-- C1 amended: provided the optional firmware-directory mirror step does
not fail, the repo tool's report counts exactly the failing entries
(exceptions included) as failed and the rest as successful, exiting 1 iff
some entry failed; and in the firmware tool, when every entry's processing
returns normally, the overall report counts exactly the entries that
returned `False` as failed, the rest as successful, exiting 1 iff some
entry failed. -/
theorem batch_report (entries : List SyncEntry) (fwStep : Option Bool)
    (hstep : fwStep ≠ some false) (m5 gh : List FwEntry)
    (hm5 : ∀ p ∈ m5, fwEntryRan p.2 = true)
    (hgh : ∀ p ∈ gh, fwEntryRan p.2 = true) :
    ((syncMain entries fwStep).1 =
        entries.length - entries.countP (fun p => !(entryOk p.2)) ∧
      (syncMain entries fwStep).2.1 = entries.countP (fun p => !(entryOk p.2)) ∧
      ((syncMain entries fwStep).2.2 = 1 ↔
        0 < entries.countP (fun p => !(entryOk p.2)))) ∧
    fwMain m5 gh = Except.ok
      (m5.length + gh.length -
         (m5.countP (fun p => fwEntryFail p.2) + gh.countP (fun p => fwEntryFail p.2)),
       m5.countP (fun p => fwEntryFail p.2) + gh.countP (fun p => fwEntryFail p.2),
       if 0 < m5.countP (fun p => fwEntryFail p.2) +
              gh.countP (fun p => fwEntryFail p.2) then 1 else 0) := by
  constructor
  · have hc := syncBatchLoop_counts entries
    have hlen := countP_not_add (fun p => entryOk p.2) entries
    have hfs : (if fwStep = some false then (syncBatchLoop entries).2.2 + 1
        else (syncBatchLoop entries).2.2) = (syncBatchLoop entries).2.2 :=
      if_neg hstep
    refine ⟨?_, ?_, ?_⟩
    · show (syncBatchLoop entries).2.1 = _
      omega
    · show (if fwStep = some false then _ else _) = _
      rw [hfs, hc.2]
    · show (if 0 < (if fwStep = some false then _ else _) then 1 else 0) = 1 ↔ _
      rw [hfs, hc.2]
      by_cases hk : 0 < entries.countP (fun p => !(entryOk p.2))
      · rw [if_pos hk]
        simp [hk]
      · rw [if_neg hk]
        simp [hk]
  · obtain ⟨s1, f1, hb1, hs1, hf1⟩ := fwBatchLoop_ok m5 hm5
    obtain ⟨s2, f2, hb2, hs2, hf2⟩ := fwBatchLoop_ok gh hgh
    have hp1 : m5.countP (fun p => fwEntryPass p.2) =
        m5.countP (fun p => !(fwEntryFail p.2)) :=
      List.countP_congr (fun p hp => by rw [fwPass_not_fail p (hm5 p hp)])
    have hp2 : gh.countP (fun p => fwEntryPass p.2) =
        gh.countP (fun p => !(fwEntryFail p.2)) :=
      List.countP_congr (fun p hp => by rw [fwPass_not_fail p (hgh p hp)])
    have hl1 := countP_not_add (fun p : FwEntry => fwEntryFail p.2) m5
    have hl2 := countP_not_add (fun p : FwEntry => fwEntryFail p.2) gh
    simp only [fwMain, hb1, hb2]
    have hfst : s1.length + s2.length =
        m5.length + gh.length -
          (m5.countP (fun p => fwEntryFail p.2) +
           gh.countP (fun p => fwEntryFail p.2)) := by
      rw [hs1, hs2, hp1, hp2]
      omega
    rw [hfst, hf1, hf2]

/-- C1 witness: a two-entry repo batch with one exception reports one
failure, and a firmware run with one success and one recorded failure
reports totals (1, 1) with exit code 1. -/
theorem batch_report_witness :
    (syncMain [(chars "a", Except.ok (true, chars "m")),
               (chars "b", Except.error (chars "e"))] none).2.1 = 1 ∧
    fwMain [(chars "c", Except.ok true)] [(chars "d", Except.ok false)] =
      Except.ok (1, 1, 1) := by
  have H := batch_report
    [(chars "a", Except.ok (true, chars "m")),
     (chars "b", Except.error (chars "e"))] none (by decide)
    [(chars "c", Except.ok true)] [(chars "d", Except.ok false)]
    (by decide) (by decide)
  exact ⟨H.1.2.1.trans (by rfl), H.2.trans (by rfl)⟩
